import Mathlib

/-!
Shallow embedding of `src/src/server/features/completionItemProvider.ts`
(coc-tsserver completion provider): trigger gating, entry filtering,
member-accessor range recovery, documentation assembly, code-action
splitting, and function-call snippet synthesis, together with proofs about
the claims of the specification.

Conventions used throughout: JavaScript strings are Lean `String`s, machine
API versions such as v2.9.0 / v4.3.0 are abbreviated to the naturals 290 /
430 (only their relative order matters), optional / possibly-`undefined`
values are `Option`s, and a thrown exception is an explicit outcome
constructor.
-/

namespace TsCompletion

/-- Configuration snapshot: the five suggestion-behavior booleans resolved per
document scope (source interface `CompletionConfiguration`, lines 50-56). -/
structure CompletionConfiguration where
  useCodeSnippetsOnMethodSuggest : Bool
  nameSuggestions : Bool
  pathSuggestions : Bool
  autoImportSuggestions : Bool
  importStatementSuggestions : Bool
deriving DecidableEq

/-- Completion context option carrying the syntax-group name under the cursor;
the source reads `option.synname` (line 357). An absent synname is modelled by
the empty string, matching JavaScript falsiness of `undefined` and `''`. -/
structure TriggerOption where
  synname : String
deriving DecidableEq

/-- Character model of the JavaScript regex class `\s`. -/
def jsWhitespaceChar (c : Char) : Bool := c.isWhitespace

/-- Whether the first list starts with the second, character by character. -/
def listStartsWithSeq : List Char → List Char → Bool
  | _, [] => true
  | [], _ :: _ => false
  | a :: as, b :: bs => a == b && listStartsWithSeq as bs

/-- Whether the first list contains the second as a contiguous subsequence. -/
def listContainsSeq : List Char → List Char → Bool
  | [], needle => needle.isEmpty
  | a :: as, needle => listStartsWithSeq (a :: as) needle || listContainsSeq as needle

/-- Model of the test `option.synname && /string/i.test(option.synname)`
(source line 357): the synname is truthy and contains "string" ignoring case. -/
def synnameStringLike (opt : TriggerOption) : Bool :=
  decide (opt.synname ≠ "") && listContainsSeq opt.synname.toLower.toList "string".toList

/-- Model of `pre.match(/^\s*\*[ ]?@/)` being non-null (source line 361):
leading whitespace, a star, an optional single space, then an at sign. -/
def matchJsdocStar (pre : String) : Bool :=
  match pre.toList.dropWhile jsWhitespaceChar with
  | '*' :: ' ' :: '@' :: _ => true
  | '*' :: '@' :: _ => true
  | _ => false

/-- Model of the pattern `\/\*\*+[ ]?@` succeeding at the head of the list:
a slash, at least two stars (greedily extended), an optional single space,
then an at sign. -/
def jsdocSlashHere (l : List Char) : Bool :=
  match l with
  | '/' :: '*' :: '*' :: rest =>
    match rest.dropWhile (fun c => c == '*') with
    | ' ' :: '@' :: _ => true
    | '@' :: _ => true
    | _ => false
  | _ => false

/-- Unanchored search for `jsdocSlashHere` at every suffix. -/
def matchJsdocSlashList : List Char → Bool
  | [] => false
  | c :: rest => jsdocSlashHere (c :: rest) || matchJsdocSlashList rest

/-- Model of `pre.match(/\/\*\*+[ ]?@/)` being non-null (source line 361). -/
def matchJsdocSlash (pre : String) : Bool :=
  matchJsdocSlashList pre.toList

/-- Tail of `shouldTrigger` (source lines 369-376): the space-trigger gate
followed by the default acceptance. Space triggers require
`importStatementSuggestions`, an API version below v4.3.0 (430), and the
preceding text to be exactly the literal "import ". -/
def shouldTriggerSpaceTail (apiVersion : Nat) (triggerCharacter : String) (pre : String)
    (configuration : CompletionConfiguration) : Bool :=
  if triggerCharacter = " " then
    if configuration.importStatementSuggestions = false ∨ ¬apiVersion < 430 then false
    else decide (pre = "import ")
  else true

/-- Embedding of `shouldTrigger` (source lines 348-377). The legacy block runs
when a trigger character fired and the API version is below v2.9.0 (290). -/
def shouldTrigger (apiVersion : Nat) (triggerCharacter : String) (pre : String)
    (option : TriggerOption) (configuration : CompletionConfiguration) : Bool :=
  if triggerCharacter ≠ "" ∧ apiVersion < 290 then
    if triggerCharacter = "@" then
      if synnameStringLike option then true
      else if matchJsdocStar pre = false ∧ matchJsdocSlash pre = false then false
      else shouldTriggerSpaceTail apiVersion triggerCharacter pre configuration
    else if triggerCharacter = "<" then false
    else shouldTriggerSpaceTail apiVersion triggerCharacter pre configuration
  else shouldTriggerSpaceTail apiVersion triggerCharacter pre configuration

/-- Kind-tag string constants from `protocol.const.ts` used by the entry
filter. -/
def kindWarning : String := "warning"

/-- Kind-tag constant `PConst.Kind.directory`. -/
def kindDirectory : String := "directory"

/-- Kind-tag constant `PConst.Kind.script`. -/
def kindScript : String := "script"

/-- Kind-tag constant `PConst.Kind.externalModuleName`. -/
def kindExternalModuleName : String := "external module name"

/-- Backend-reported completion entry: name, kind tag, quick-fix flag and
optional source module (the fields the filter consults). -/
structure CompletionEntry where
  name : String
  kind : String
  hasAction : Bool
  source : Option String
deriving DecidableEq

/-- Embedding of `shouldExcludeCompletionEntry` (source lines 469-479). -/
def shouldExcludeCompletionEntry (element : CompletionEntry)
    (completionConfiguration : CompletionConfiguration) : Bool :=
  (!completionConfiguration.nameSuggestions && element.kind == kindWarning)
  || (!completionConfiguration.pathSuggestions &&
      (element.kind == kindDirectory || element.kind == kindScript
        || element.kind == kindExternalModuleName))
  || (!completionConfiguration.autoImportSuggestions && element.hasAction)

/-- Embedding of the entry loop of `provideCompletionItems` (source lines
191-211): walk the entries in order, skip the excluded ones, keep the rest.
The per-entry conversion `convertCompletionEntry` is an external collaborator,
so the surviving entries themselves are returned. -/
def assembleCompletionEntries (entries : List CompletionEntry)
    (completionConfiguration : CompletionConfiguration) : List CompletionEntry :=
  match entries with
  | [] => []
  | element :: rest =>
    if shouldExcludeCompletionEntry element completionConfiguration then
      assembleCompletionEntries rest completionConfiguration
    else element :: assembleCompletionEntries rest completionConfiguration

/-- A zero-based editor position. -/
structure Position where
  line : Nat
  character : Nat
deriving DecidableEq

/-- An editor range between two positions (the protocol field `end` is named
`endPos` because `end` is a Lean keyword). -/
structure RangeT where
  start : Position
  endPos : Position
deriving DecidableEq

/-- The pair attached for member completions: the recomputed accessor range and
the document text of that range. -/
structure DotAccessorContext where
  range : RangeT
  text : String
deriving DecidableEq

/-- First `n` characters of a string, the model of JavaScript `slice(0, n)` /
`getText` from the line start. -/
def stringTakeChars (s : String) (n : Nat) : String :=
  String.mk (s.toList.take n)

/-- Document text of a single-line range, read off the line's text. -/
def lineGetText (line : String) (r : RangeT) : String :=
  String.mk ((line.toList.take r.endPos.character).drop r.start.character)

/-- The text matched by the JavaScript regex `\??\.\s*$`: trailing whitespace,
preceded by a dot, optionally preceded by a question mark. Returns the matched
text, or none when the text before the cursor does not end that way. -/
def dotAccessorMatchedText (s : String) : Option String :=
  let rev := s.toList.reverse
  let ws := rev.takeWhile jsWhitespaceChar
  match rev.drop ws.length with
  | '.' :: rest =>
    match rest with
    | '?' :: _ => some (String.mk (['?', '.'] ++ ws.reverse))
    | _ => some (String.mk (['.'] ++ ws.reverse))
  | _ => none

/-- Model of `preText.slice(0, position.character).match(/\??\.\s*$/)`: a
JavaScript match against a regex with no capture groups yields, on success, a
match array holding exactly the full matched text, so the array has length 1.
The source's `dotMatch.length` (line 169) is the length of this array. -/
def dotAccessorMatchArray (s : String) : Option (List String) :=
  (dotAccessorMatchedText s).map (fun m => [m])

/-- Embedding of the member-completion accessor recovery inside
`provideCompletionItems` (source lines 162-174): when the backend reports a
member completion, match the text before the cursor against `\??\.\s*$` and, on
a match, attach a `DotAccessorContext` whose range ends at the cursor and
starts `dotMatch.length` characters earlier, with the document text of that
range. -/
def provideDotAccessorContext (line : String) (position : Position)
    (isMemberCompletion : Bool) : Option DotAccessorContext :=
  if isMemberCompletion then
    let preText := stringTakeChars line position.character
    match dotAccessorMatchArray (stringTakeChars preText position.character) with
    | some dotMatch =>
      let range : RangeT :=
        { start := { line := position.line, character := position.character - dotMatch.length },
          endPos := position }
      some { range := range, text := lineGetText line range }
    | none => none
  else none

/-- Width in characters of a single-line range. -/
def rangeWidth (r : RangeT) : Nat :=
  r.endPos.character - r.start.character

/-- A backend code edit (`Proto.CodeEdit`): start / end locations and the new
text. -/
structure CodeEdit where
  start : Position
  endPos : Position
  newText : String
deriving DecidableEq

/-- An editor text edit: a range and the new text. -/
structure TextEdit where
  range : RangeT
  newText : String
deriving DecidableEq

/-- Modelled from the spec: the raw text-edit conversion primitive
`typeConverters.TextEdit.fromCodeEdit` is an external collaborator (spec
section 1 lists raw text-edit conversion as out of scope); it converts a
backend code edit with one-based locations into an editor text edit with a
zero-based range, carrying the new text through. -/
def fromCodeEdit (edit : CodeEdit) : TextEdit :=
  { range := { start := { line := edit.start.line - 1, character := edit.start.character - 1 },
               endPos := { line := edit.endPos.line - 1, character := edit.endPos.character - 1 } },
    newText := edit.newText }

/-- One per-file change of a code action (`Proto.FileCodeEdits`). -/
structure FileCodeEdits where
  fileName : String
  textChanges : List CodeEdit
deriving DecidableEq

/-- A backend code action (`Proto.CodeAction`): optional commands (a present
empty command list is still truthy in JavaScript, hence `Option`), a
description, and optional per-file changes. -/
structure CodeAction where
  commands : Option (List String)
  description : String
  changes : Option (List FileCodeEdits)
deriving DecidableEq

/-- Identifier of the deferred command registered by the provider
(`ApplyCompletionCodeActionCommand.ID`, source line 26). -/
def applyCompletionCodeActionCommandID : String :=
  "_typescript.applyCompletionCodeAction"

/-- The deferred command built by the splitter: title, command id, and the
stripped code actions passed as its single argument. -/
structure DeferredCommand where
  title : String
  command : String
  arguments : List CodeAction
deriving DecidableEq

/-- Result shape of `getCodeActions`: the optional deferred command and the
optional inline edits. -/
structure CodeActionsResult where
  command : Option DeferredCommand
  additionalTextEdits : Option (List TextEdit)
deriving DecidableEq

/-- The deferred-command payload mapping of `getCodeActions` (source lines
332-336): each action keeps its commands and description but its changes are
filtered down to the ones outside the current file. The mapping reads
`x.changes.filter` without a guard, so an absent `changes` field throws a
`TypeError` in the source, modelled as `none`. -/
def stripCurrentFileChanges (filepath : String) : List CodeAction → Option (List CodeAction)
  | [] => some []
  | x :: rest =>
    match x.changes with
    | none => none
    | some chs =>
      match stripCurrentFileChanges filepath rest with
      | none => none
      | some tail =>
        some ({ commands := x.commands, description := x.description,
                changes := some (chs.filter (fun c => decide (c.fileName ≠ filepath))) } :: tail)

/-- Embedding of `getCodeActions` (source lines 295-346). The overall result is
an `Option`: `none` models the `TypeError` thrown when the deferred-command
payload mapping dereferences an absent `changes` field (`x.changes.filter` at
line 335 runs unguarded, unlike the guarded scanning loop at line 311). -/
def getCodeActions (codeActions : Option (List CodeAction)) (filepath : String) :
    Option CodeActionsResult :=
  match codeActions with
  | none => some { command := none, additionalTextEdits := none }
  | some acts =>
    if acts.isEmpty then some { command := none, additionalTextEdits := none }
    else
      let additionalTextEdits :=
        acts.foldl (fun edits tsAction =>
          match tsAction.changes with
          | none => edits
          | some chs =>
            chs.foldl (fun edits change =>
              if change.fileName = filepath then
                edits ++ change.textChanges.map fromCodeEdit
              else edits) edits) []
      let hasRemainingCommandsOrEdits :=
        acts.any (fun tsAction =>
          tsAction.commands.isSome ||
          (match tsAction.changes with
           | none => false
           | some chs => chs.any (fun change => decide (change.fileName ≠ filepath))))
      if hasRemainingCommandsOrEdits then
        match stripCurrentFileChanges filepath acts with
        | none => none
        | some stripped =>
          some { command := some { title := "", command := applyCompletionCodeActionCommandID,
                                   arguments := stripped },
                 additionalTextEdits := if additionalTextEdits.isEmpty then none
                                        else some additionalTextEdits }
      else
        some { command := none,
               additionalTextEdits := if additionalTextEdits.isEmpty then none
                                      else some additionalTextEdits }

/-- A display part of the backend protocol (`Proto.SymbolDisplayPart`): a text
and a part kind. -/
structure SymbolDisplayPart where
  text : String
  kind : String
deriving DecidableEq

/-- Modelled from the spec: the markup/text rendering helper
`Previewer.plainWithLinks` is an external collaborator (spec section 1 lists
markup/text rendering helpers as out of scope); per the spec it renders display
parts to plain text, modelled as the concatenation of the part texts. -/
def plainWithLinks (parts : List SymbolDisplayPart) : String :=
  String.join (parts.map SymbolDisplayPart.text)

/-- Model of JavaScript `String.prototype.trim`: strip leading and trailing
whitespace. -/
def jsTrim (s : String) : String :=
  String.mk (((s.toList.dropWhile jsWhitespaceChar).reverse.dropWhile jsWhitespaceChar).reverse)

/-- JavaScript `Array.prototype.join` with a separator. -/
def joinSep (sep : String) : List String → String
  | [] => ""
  | [a] => a
  | a :: rest => a ++ sep ++ joinSep sep rest

/-- Modelled from the spec: the markup/text rendering helper
`Previewer.tagsMarkdownPreview` is an external collaborator; each structured
tag is carried as its rendered markdown text and the helper joins those blocks.
-/
def tagsMarkdownPreview (tags : List String) : String :=
  joinSep "\n\n" tags

/-- Structured parameter metadata: the display parts of the required
parameters, and whether any parameter is optional. -/
structure ParameterListParts where
  parts : List SymbolDisplayPart
  hasOptionalParameters : Bool
deriving DecidableEq

/-- A resolved entry detail (`Proto.CompletionEntryDetails`) with the fields
the resolution pipeline consumes. The `parameterListParts` field stands for
the result of the external structured-parameter extraction
`getParameterListParts(displayParts)` (modelled from the spec, which treats
that primitive as out of scope). Structured tags are carried pre-rendered, see
`tagsMarkdownPreview`. -/
structure CompletionEntryDetails where
  displayParts : List SymbolDisplayPart
  documentation : List SymbolDisplayPart
  tags : List String
  source : Option (List SymbolDisplayPart)
  codeActions : Option (List CodeAction)
  parameterListParts : ParameterListParts
deriving DecidableEq

/-- Markup kind and value of a documentation block. -/
structure MarkupContent where
  kind : String
  value : String
deriving DecidableEq

/-- The markdown markup kind constant. -/
def markupKindMarkdown : String := "markdown"

/-- Embedding of `getDocumentation` (source lines 380-400): an optional
auto-import line built from the detail's source, then the rendered description
and rendered tags with blank segments dropped, joined as blocks; an empty
result leaves the documentation unset. -/
def getDocumentation (detail : CompletionEntryDetails) : Option MarkupContent :=
  let documentation :=
    match detail.source with
    | some src =>
      let importPath := "'" ++ plainWithLinks src ++ "'"
      let autoImportLabel := "Auto import from " ++ importPath
      autoImportLabel ++ "\n"
    | none => ""
  let parts := [plainWithLinks detail.documentation, tagsMarkdownPreview detail.tags]
  let parts := parts.filter (fun s => decide (s ≠ "") && decide (jsTrim s ≠ ""))
  let documentation := documentation ++ joinSep "\n\n" parts
  if documentation.length > 0 then
    some { kind := markupKindMarkdown, value := documentation }
  else none

/-- One token of a built snippet: literal text, a numbered placeholder
pre-filled with text, or an empty tab-stop. -/
inductive SnippetTok where
  | text (s : String)
  | placeholder (n : Nat) (s : String)
  | tabstop (n : Nat)
deriving DecidableEq

/-- Modelled from the spec: the snippet text-builder primitive `SnippetString`
is an external collaborator (spec section 1 lists it as out of scope). It is
modelled as the token list built so far plus the next automatic tab-stop
number, which starts at 1. -/
structure SnippetString where
  toks : List SnippetTok
  tabstopNum : Nat
deriving DecidableEq

/-- A fresh snippet builder. -/
def SnippetString.start : SnippetString := { toks := [], tabstopNum := 1 }

/-- Append literal text. -/
def SnippetString.appendText (sn : SnippetString) (s : String) : SnippetString :=
  { sn with toks := sn.toks ++ [.text s] }

/-- Append a placeholder pre-filled with the given text, consuming the next
automatic tab-stop number. -/
def SnippetString.appendPlaceholder (sn : SnippetString) (s : String) : SnippetString :=
  { toks := sn.toks ++ [.placeholder sn.tabstopNum s], tabstopNum := sn.tabstopNum + 1 }

/-- Append an empty tab-stop with the next automatic number (the source call
`snippet.appendTabstop()`). -/
def SnippetString.appendTabstopAuto (sn : SnippetString) : SnippetString :=
  { toks := sn.toks ++ [.tabstop sn.tabstopNum], tabstopNum := sn.tabstopNum + 1 }

/-- Append the final empty tab-stop `$0` (the source call
`snippet.appendTabstop(0)`), which does not consume an automatic number. -/
def SnippetString.appendTabstopZero (sn : SnippetString) : SnippetString :=
  { sn with toks := sn.toks ++ [.tabstop 0] }

/-- Escape of snippet-special characters in literal text, as the external
builder performs on appended text (dollar, closing brace, backslash). -/
def escapeSnippetText (s : String) : String :=
  String.join (s.toList.map (fun c =>
    if c == '$' || c == Char.ofNat 125 || c == '\\' then String.mk ['\\', c]
    else String.mk [c]))

/-- Rendering of one snippet token to the snippet-syntax string. -/
def renderSnippetTok : SnippetTok → String
  | .text s => escapeSnippetText s
  | .placeholder n s =>
    "$" ++ String.mk [Char.ofNat 123] ++ toString n ++ ":" ++ escapeSnippetText s
      ++ String.mk [Char.ofNat 125]
  | .tabstop n => "$" ++ toString n

/-- The built snippet text (`snippet.value` in the source). -/
def SnippetString.value (sn : SnippetString) : String :=
  String.join (sn.toks.map renderSnippetTok)

/-- Embedding of `appendJoinedPlaceholders` (source lines 481-493): one
placeholder per part, pre-filled with the part's text, with the joiner between
consecutive placeholders. -/
def appendJoinedPlaceholders (snippet : SnippetString) (parts : List SymbolDisplayPart)
    (joiner : String) : SnippetString :=
  match parts with
  | [] => snippet
  | [p] => snippet.appendPlaceholder p.text
  | p :: rest => appendJoinedPlaceholders ((snippet.appendPlaceholder p.text).appendText joiner)
      rest joiner

/-- Insertion-text format of an item. -/
inductive InsertTextFormat where
  | plainText
  | snippet
deriving DecidableEq

/-- The opaque correlation data attached to each item: file identity, original
position, optional source module, entry name, opaque backend data, and the
mutable `isSnippet` idempotence flag (absent models as `false`). -/
structure ItemData where
  uri : String
  position : Position
  source : Option String
  name : String
  data : Option String
  isSnippet : Bool
deriving DecidableEq

/-- An editor completion item with the fields the resolution pipeline touches. -/
structure CompletionItemT where
  label : String
  detail : Option String
  insertText : Option String
  insertTextFormat : InsertTextFormat
  documentation : Option MarkupContent
  command : Option DeferredCommand
  additionalTextEdits : Option (List TextEdit)
  data : ItemData
deriving DecidableEq

/-- Embedding of `createSnippetOfFunctionCall` (source lines 402-417): build
`<insertText or label>(`, the joined placeholders, an extra empty tab-stop when
optional parameters exist, `)`, and the final `$0`; then replace the item's
insertion text with the built snippet text. -/
def createSnippetOfFunctionCall (item : CompletionItemT) (detail : CompletionEntryDetails) :
    CompletionItemT :=
  let parameterListParts := detail.parameterListParts
  let snippet := SnippetString.start
  let snippet := snippet.appendText ((item.insertText.getD item.label) ++ "(")
  let snippet := appendJoinedPlaceholders snippet parameterListParts.parts ", "
  let snippet := if parameterListParts.hasOptionalParameters then snippet.appendTabstopAuto
                 else snippet
  let snippet := snippet.appendText ")"
  let snippet := snippet.appendTabstopZero
  { item with insertText := some snippet.value }

/-- The entry-name argument of the details request: the source builds either
the bare name or the record with name, source, and opaque data (line 260). -/
inductive EntryName where
  | plain (name : String)
  | withSource (name : String) (source : String) (data : Option String)
deriving DecidableEq

/-- Arguments of the `completionEntryDetails` request. The file-location part
models the external `typeConverters.Position.toFileLocationRequestArgs`
(modelled from the spec: zero-based position to one-based line and offset). -/
structure DetailsArgs where
  file : String
  line : Nat
  offset : Nat
  entryNames : List EntryName
deriving DecidableEq

/-- The source's `source ? { name, source, data } : name` (line 260): the
source string is truthy when present and non-empty. -/
def entryNameOf (d : ItemData) : EntryName :=
  match d.source with
  | some s => if s ≠ "" then .withSource d.name s d.data else .plain d.name
  | none => .plain d.name

/-- Request arguments built by `resolveCompletionItem` (source lines 255-261). -/
def completionDetailsArgs (filepath : String) (d : ItemData) : DetailsArgs :=
  { file := filepath
    line := d.position.line + 1
    offset := d.position.character + 1
    entryNames := [entryNameOf d] }

/-- Outcome of the `completionEntryDetails` round trip: a thrown failure, a
non-response or bodyless reply, or a body with the detail list. -/
inductive DetailsOutcome where
  | failure
  | notResponse
  | body (details : List CompletionEntryDetails)
deriving DecidableEq

/-- Outcome of the `quickinfo` round trip used by the call-eligibility check:
a thrown failure, a non-response or bodyless reply, or a body whose `kind` is
the given string (an absent kind is the empty string). -/
inductive QuickinfoOutcome where
  | failure
  | notResponse
  | body (kind : String)
deriving DecidableEq

/-- The environment a resolution call runs in: the client's uri-to-path
resolution, the backend's reply to the details request, the backend's reply to
the quickinfo request, and the provider's `currentLine` field recorded by the
last list assembly. -/
structure ResolveEnv where
  toPath : String → Option String
  completionEntryDetails : DetailsArgs → DetailsOutcome
  quickinfo : QuickinfoOutcome
  currentLine : String

/-- Outcome of a resolution call: a returned value (`ret none` models the
JavaScript `return undefined`), or an uncaught exception propagating out. -/
inductive ResolveOutcome where
  | ret (item : Option CompletionItemT)
  | threw
deriving DecidableEq

/-- JavaScript falsiness of an optional string (absent or empty). -/
def jsFalsyStrOpt : Option String → Bool
  | none => true
  | some s => decide (s = "")

/-- Character class `[a-z_$0-9]` of the source regex with the `i` flag. -/
def jsIdentLikeChar (c : Char) : Bool :=
  decide ('a' ≤ c ∧ c ≤ 'z') || decide ('A' ≤ c ∧ c ≤ 'Z') ||
    decide ('0' ≤ c ∧ c ≤ '9') || c == '_' || c == '$'

/-- Model of `after.match(/^[a-z_$0-9]*\s*\(/gi) !== null` (source line 447):
from the start, a run of identifier-like characters, then whitespace, then an
opening parenthesis. -/
def matchesCallPattern (s : String) : Bool :=
  match (s.toList.dropWhile jsIdentLikeChar).dropWhile jsWhitespaceChar with
  | '(' :: _ => true
  | _ => false

/-- Embedding of `isValidFunctionCompletionContext` (source lines 419-448):
a quickinfo kind of var / let / const / alias blocks the snippet; any failure
of the lookup is swallowed (fail-open); finally the text after the cursor on
the recorded current line must not already look like a call. -/
def isValidFunctionCompletionContext (env : ResolveEnv) (position : Position) : Bool :=
  let blockedByKind :=
    match env.quickinfo with
    | .body k => k == "var" || k == "let" || k == "const" || k == "alias"
    | _ => false
  if blockedByKind then false
  else
    let after := String.mk (env.currentLine.toList.drop position.character)
    !(matchesCallPattern after)

/-- Step of `resolveCompletionItem` at source lines 278-280: set the item's
detail text from the detail's display parts when the item has none yet and the
display parts are non-empty. -/
def applyDetailText (item : CompletionItemT) (detail : CompletionEntryDetails) :
    CompletionItemT :=
  if jsFalsyStrOpt item.detail && decide (detail.displayParts ≠ []) then
    { item with detail := some (plainWithLinks detail.displayParts) }
  else item

/-- Step of `resolveCompletionItem` at source lines 282-284: attach the
splitter's command when one was produced, and unconditionally replace the
additional text edits. -/
def applyCodeActionsResult (item : CompletionItemT) (res : CodeActionsResult) :
    CompletionItemT :=
  let item2 :=
    match res.command with
    | some c => { item with command := some c }
    | none => item
  { item2 with additionalTextEdits := res.additionalTextEdits }

/-- Step of `resolveCompletionItem` at source lines 285-291: when the item
uses snippet insertion and is not yet marked as snippet-synthesized, mark it,
then synthesize the call snippet when the context is eligible and the
insertion text still equals the entry snapshot. -/
def applySnippetPhase (env : ResolveEnv) (position : Position)
    (previousInsert : Option String) (item : CompletionItemT)
    (detail : CompletionEntryDetails) : CompletionItemT :=
  if !item.data.isSnippet && item.insertTextFormat == InsertTextFormat.snippet then
    let item2 := { item with data := { item.data with isSnippet := true } }
    if isValidFunctionCompletionContext env position
        && previousInsert == item2.insertText then
      createSnippetOfFunctionCall item2 detail
    else item2
  else item

/-- Embedding of `resolveCompletionItem` (source lines 245-293). When the uri
cannot be resolved to a path the source returns `undefined` (line 253),
modelled as `ret none`; a details failure or an empty or malformed response
returns the item unchanged; otherwise the item is enriched with detail text,
documentation, the splitter's command and edits, and, when eligible and not
yet marked, the synthesized call snippet. A `threw` outcome models the
splitter's uncaught `TypeError`. -/
def resolveCompletionItem (env : ResolveEnv) (item : CompletionItemT) : ResolveOutcome :=
  match env.toPath item.data.uri with
  | none => .ret none
  | some filepath =>
    match env.completionEntryDetails (completionDetailsArgs filepath item.data) with
    | .failure => .ret (some item)
    | .notResponse => .ret (some item)
    | .body [] => .ret (some item)
    | .body (detail :: _) =>
      match getCodeActions detail.codeActions filepath with
      | none => .threw
      | some res =>
        .ret (some (applySnippetPhase env item.data.position item.insertText
          (applyCodeActionsResult
            { applyDetailText item detail with documentation := getDocumentation detail }
            res) detail))

/-- Default configuration snapshot (spec section 3). -/
def cfgDefault : CompletionConfiguration :=
  { useCodeSnippetsOnMethodSuggest := false, nameSuggestions := true, pathSuggestions := true,
    autoImportSuggestions := true, importStatementSuggestions := true }

/-- A trigger option with no syntax-group name. -/
def optNoSyn : TriggerOption := { synname := "" }

/-- Concrete current-file code edit used by the splitter examples. -/
def c2editCur : CodeEdit :=
  { start := { line := 1, character := 1 }, endPos := { line := 1, character := 1 },
    newText := "import x" }

/-- Concrete other-file code edit used by the splitter examples. -/
def c2editOther : CodeEdit :=
  { start := { line := 2, character := 1 }, endPos := { line := 2, character := 1 },
    newText := "export y" }

/-- A code action with one current-file change and one other-file change. -/
def c2action : CodeAction :=
  { commands := none, description := "Add import",
    changes := some [{ fileName := "/cur.ts", textChanges := [c2editCur] },
                     { fileName := "/other.ts", textChanges := [c2editOther] }] }

/-- The same action with its current-file change stripped, as the deferred
command carries it. -/
def c2stripped : CodeAction :=
  { commands := none, description := "Add import",
    changes := some [{ fileName := "/other.ts", textChanges := [c2editOther] }] }

/-- A concrete completion item whose correlation data is not yet marked as
snippet-synthesized. -/
def c1Item : CompletionItemT :=
  { label := "foo", detail := none, insertText := some "foo",
    insertTextFormat := InsertTextFormat.plainText, documentation := none, command := none,
    additionalTextEdits := none,
    data := { uri := "untitled:a.ts", position := { line := 0, character := 3 }, source := none,
              name := "foo", data := none, isSnippet := false } }

/-- An environment whose client cannot resolve any uri to a path. -/
def c1EnvNoPath : ResolveEnv :=
  { toPath := fun _ => none, completionEntryDetails := fun _ => DetailsOutcome.failure,
    quickinfo := QuickinfoOutcome.failure, currentLine := "" }

/-- An environment that resolves paths but whose details request always
throws. -/
def c1EnvFail : ResolveEnv :=
  { toPath := fun _ => some "/a.ts", completionEntryDetails := fun _ => DetailsOutcome.failure,
    quickinfo := QuickinfoOutcome.failure, currentLine := "" }

/-- A concrete entry detail with no documentation, no tags, no source and no
code actions. -/
def c3Detail : CompletionEntryDetails :=
  { displayParts := [{ text := "const foo: number", kind := "text" }], documentation := [],
    tags := [], source := none, codeActions := none,
    parameterListParts := { parts := [], hasOptionalParameters := false } }

/-- A concrete item whose correlation data already carries `isSnippet = true`. -/
def c3Item : CompletionItemT :=
  { label := "foo", detail := none, insertText := some "foo",
    insertTextFormat := InsertTextFormat.snippet, documentation := none, command := none,
    additionalTextEdits := none,
    data := { uri := "untitled:a.ts", position := { line := 0, character := 3 }, source := none,
              name := "foo", data := none, isSnippet := true } }

/-- An environment whose details request answers with `c3Detail`. -/
def c3Env : ResolveEnv :=
  { toPath := fun _ => some "/a.ts",
    completionEntryDetails := fun _ => DetailsOutcome.body [c3Detail],
    quickinfo := QuickinfoOutcome.notResponse, currentLine := "foo" }

/-- The item produced by resolving `c3Item` in `c3Env`. -/
def c3Resolved : CompletionItemT :=
  match resolveCompletionItem c3Env c3Item with
  | ResolveOutcome.ret (some i) => i
  | _ => c3Item

/-- A concrete item eligible for snippet synthesis. -/
def c5Item : CompletionItemT :=
  { label := "foo", detail := none, insertText := some "foo",
    insertTextFormat := InsertTextFormat.snippet, documentation := none, command := none,
    additionalTextEdits := none,
    data := { uri := "untitled:a.ts", position := { line := 0, character := 3 }, source := none,
              name := "foo", data := none, isSnippet := false } }

/-- A concrete detail whose structured parameter list has two required
parameters and an optional one. -/
def c5Detail : CompletionEntryDetails :=
  { displayParts := [], documentation := [], tags := [], source := none, codeActions := none,
    parameterListParts :=
      { parts := [{ text := "a: string", kind := "parameterName" },
                  { text := "b: number", kind := "parameterName" }],
        hasOptionalParameters := true } }

/-- A concrete detail carrying a source module and a plain description. -/
def c9Detail : CompletionEntryDetails :=
  { displayParts := [], documentation := [{ text := "Does things.", kind := "text" }],
    tags := [], source := some [{ text := "./mod", kind := "text" }], codeActions := none,
    parameterListParts := { parts := [], hasOptionalParameters := false } }

/-- A code action that carries commands but no `changes` field. -/
def c10Action : CodeAction :=
  { commands := some ["editor.action.showReferences"], description := "fix", changes := none }

theorem strEqEmptyIffData (s : String) : s = "" ↔ s.data = [] := by
  constructor
  · intro h; rw [h]
  · intro h; exact String.ext (h.trans rfl)

theorem strAppendEqEmptyIff (s t : String) : s ++ t = "" ↔ s = "" ∧ t = "" := by
  constructor
  · intro h
    have h2 : s.data ++ t.data = [] := by
      have h3 := congrArg String.data h
      rwa [String.data_append] at h3
    rcases List.append_eq_nil.mp h2 with ⟨ha, hb⟩
    exact ⟨String.ext (ha.trans rfl), String.ext (hb.trans rfl)⟩
  · rintro ⟨h1, h2⟩
    rw [h1, h2]
    rfl

theorem strLengthPosIff (s : String) : 0 < s.length ↔ s ≠ "" := by
  rw [show s.length = s.data.length from rfl, List.length_pos]
  constructor
  · intro h hc
    exact h (by rw [hc])
  · intro h hc
    exact h (String.ext (hc.trans rfl))

theorem shouldTriggerSpaceReduction (apiVersion : Nat) (pre : String) (option : TriggerOption)
    (configuration : CompletionConfiguration) :
    shouldTrigger apiVersion " " pre option configuration
      = shouldTriggerSpaceTail apiVersion " " pre configuration := by
  unfold shouldTrigger
  by_cases hv : apiVersion < 290
  · rw [if_pos ⟨by decide, hv⟩, if_neg (by decide), if_neg (by decide)]
  · rw [if_neg (fun hc => hv hc.2)]

/-- C6: for every configuration, capability version and preceding text, a
space trigger is accepted exactly when `importStatementSuggestions` is
enabled, the version is below the native space-trigger floor v4.3.0, and the
preceding text is exactly the literal "import ". -/
theorem c6_space_trigger (apiVersion : Nat) (pre : String) (option : TriggerOption)
    (configuration : CompletionConfiguration) :
    shouldTrigger apiVersion " " pre option configuration = true ↔
      (configuration.importStatementSuggestions = true ∧ apiVersion < 430 ∧ pre = "import ") := by
  rw [shouldTriggerSpaceReduction]
  unfold shouldTriggerSpaceTail
  rw [if_pos rfl]
  by_cases himp : configuration.importStatementSuggestions = true
  · by_cases hv4 : apiVersion < 430
    · rw [if_neg (by simp [himp, hv4])]
      simp [himp, hv4]
    · rw [if_pos (Or.inr hv4)]
      simp [hv4]
  · have hfalse : configuration.importStatementSuggestions = false := by
      revert himp; cases configuration.importStatementSuggestions <;> simp
    rw [if_pos (Or.inl hfalse)]
    simp [hfalse]

/-- C7: below the legacy threshold v2.9.0, an at-sign trigger outside a
string-like syntax region whose preceding text matches neither doc-comment
pattern is rejected, and an angle-bracket trigger is always rejected. -/
theorem c7_legacy_trigger (apiVersion : Nat) (pre : String) (option : TriggerOption)
    (configuration : CompletionConfiguration) (hv : apiVersion < 290) :
    (synnameStringLike option = false → matchJsdocStar pre = false →
      matchJsdocSlash pre = false →
      shouldTrigger apiVersion "@" pre option configuration = false) ∧
    shouldTrigger apiVersion "<" pre option configuration = false := by
  constructor
  · intro hs h1 h2
    unfold shouldTrigger
    rw [if_pos ⟨by decide, hv⟩, if_pos rfl, if_neg (by simp [hs]), if_pos ⟨h1, h2⟩]
  · unfold shouldTrigger
    rw [if_pos ⟨by decide, hv⟩, if_neg (by decide), if_pos rfl]

theorem c7_legacy_trigger_witness :
    shouldTrigger 280 "@" "const x" optNoSyn cfgDefault = false ∧
    shouldTrigger 280 "<" "const x" optNoSyn cfgDefault = false :=
  ⟨(c7_legacy_trigger 280 "const x" optNoSyn cfgDefault (by decide)).1 rfl rfl rfl,
   (c7_legacy_trigger 280 "const x" optNoSyn cfgDefault (by decide)).2⟩

/-- C8: the assembly loop keeps exactly the entries the exclusion predicate
rejects nothing of, in their original relative order, and the predicate drops
precisely warning-kind entries without `nameSuggestions`, path-kind entries
without `pathSuggestions`, and quick-fix entries without
`autoImportSuggestions`. -/
theorem c8_entry_filter (entries : List CompletionEntry) (cfg : CompletionConfiguration) :
    assembleCompletionEntries entries cfg
        = entries.filter (fun e => !shouldExcludeCompletionEntry e cfg) ∧
    List.Sublist (assembleCompletionEntries entries cfg) entries ∧
    ∀ e : CompletionEntry,
      shouldExcludeCompletionEntry e cfg = true ↔
        ((e.kind = "warning" ∧ cfg.nameSuggestions = false) ∨
         ((e.kind = "directory" ∨ e.kind = "script" ∨ e.kind = "external module name") ∧
            cfg.pathSuggestions = false) ∨
         (e.hasAction = true ∧ cfg.autoImportSuggestions = false)) := by
  have hfilter : assembleCompletionEntries entries cfg
      = entries.filter (fun e => !shouldExcludeCompletionEntry e cfg) := by
    induction entries with
    | nil => rfl
    | cons e rest ih =>
      by_cases h : shouldExcludeCompletionEntry e cfg <;>
        simp [assembleCompletionEntries, h, ih, List.filter_cons]
  refine ⟨hfilter, hfilter ▸ List.filter_sublist entries, fun e => ?_⟩
  simp only [shouldExcludeCompletionEntry, kindWarning, kindDirectory, kindScript,
    kindExternalModuleName, Bool.or_eq_true, Bool.and_eq_true, Bool.not_eq_true',
    beq_iff_eq]
  tauto

/-- C10: the splitter is not total: an action that carries commands but no
`changes` field reaches the deferred-command payload mapping, which
dereferences the absent field, so the call produces no result; guarding the
same action with an empty `changes` list restores a result. -/
theorem c10_splitter_crash :
    getCodeActions (some [c10Action]) "/a.ts" = none ∧
    getCodeActions (some [{ c10Action with changes := some [] }]) "/a.ts" =
      some { command := some { title := "", command := applyCompletionCodeActionCommandID,
                               arguments := [{ c10Action with changes := some [] }] },
             additionalTextEdits := none } := by
  constructor <;> rfl

/-- C4: recorded behavior of the member-accessor recovery at the failing
input: for the line "a?." with the cursor after the dot, the matched text of
the regex is "?." of length 2, but the attached context's range spans only 1
character (the source subtracts the match array's length, which is always 1
for this group-free regex), so its text is "." rather than "?."; with
`isMemberCompletion` false no context is attached. -/
theorem c4_dot_accessor_eval :
    provideDotAccessorContext "a?." { line := 0, character := 3 } true =
      some { range := { start := { line := 0, character := 2 },
                        endPos := { line := 0, character := 3 } },
             text := "." } ∧
    dotAccessorMatchedText "a?." = some "?." ∧
    rangeWidth { start := { line := 0, character := 2 },
                 endPos := { line := 0, character := 3 } } = 1 ∧
    String.length "?." = 2 ∧
    provideDotAccessorContext "a?." { line := 0, character := 3 } false = none := by
  refine ⟨?_, ?_, ?_, ?_, ?_⟩ <;> rfl

/-- C2 counterexample: re-running the splitter on the stripped action alone
still emits a deferred command (carrying the same stripped action), refuting
the claim's "no deferred command" at this concrete input; the inline edits are
indeed absent. -/
theorem c2_splitter_counterexample :
    (getCodeActions (some [c2stripped]) "/cur.ts").map CodeActionsResult.command ≠ some none ∧
    (getCodeActions (some [c2stripped]) "/cur.ts").map CodeActionsResult.additionalTextEdits
      = some none := by
  constructor <;> decide

/-- C2 as amended: for an action with exactly one current-file change and one
other-file change, the splitter emits exactly the current-file change's
converted edits inline plus a deferred command whose payload is the action
with the current-file change stripped; re-running it on that stripped action
alone yields no inline edits but again a deferred command carrying that same
stripped action. -/
theorem c2_splitter_amended (a : CodeAction) (f : String) (c1 c2 : FileCodeEdits)
    (hcmd : a.commands = none) (hch : a.changes = some [c1, c2])
    (h1 : c1.fileName = f) (h2 : c2.fileName ≠ f) (hne : c1.textChanges ≠ []) :
    getCodeActions (some [a]) f =
      some { command := some { title := "", command := applyCompletionCodeActionCommandID,
                               arguments := [{ commands := none, description := a.description,
                                               changes := some [c2] }] },
             additionalTextEdits := some (c1.textChanges.map fromCodeEdit) } ∧
    getCodeActions (some [{ commands := none, description := a.description,
                            changes := some [c2] }]) f =
      some { command := some { title := "", command := applyCompletionCodeActionCommandID,
                               arguments := [{ commands := none, description := a.description,
                                               changes := some [c2] }] },
             additionalTextEdits := none } := by
  obtain ⟨cmds, desc, chs⟩ := a
  obtain ⟨f1, tc1⟩ := c1
  obtain ⟨f2, tc2⟩ := c2
  simp only at hcmd hch h1 h2 hne
  subst hcmd hch h1
  cases tc1 with
  | nil => exact absurd rfl hne
  | cons e es =>
    constructor
    · simp [getCodeActions, stripCurrentFileChanges, h2]
    · simp [getCodeActions, stripCurrentFileChanges, h2]

theorem c2_splitter_witness :
    getCodeActions (some [c2action]) "/cur.ts" =
      some { command := some { title := "", command := applyCompletionCodeActionCommandID,
                               arguments := [c2stripped] },
             additionalTextEdits := some [fromCodeEdit c2editCur] } ∧
    getCodeActions (some [c2stripped]) "/cur.ts" =
      some { command := some { title := "", command := applyCompletionCodeActionCommandID,
                               arguments := [c2stripped] },
             additionalTextEdits := none } :=
  c2_splitter_amended c2action "/cur.ts" { fileName := "/cur.ts", textChanges := [c2editCur] }
    { fileName := "/other.ts", textChanges := [c2editOther] } rfl rfl rfl (by decide) (by decide)

/-- C5: with a structured parameter list of exactly two required parameters
and an optional one, the synthesized snippet is the literal
`<insertText or label>(`, placeholders 1 and 2 pre-filled with the two display
texts and joined by ", ", an extra empty tab-stop, `)`, and the final `$0`;
the item's insertion text is replaced with the built snippet text. -/
theorem c5_snippet_synthesis (item : CompletionItemT) (detail : CompletionEntryDetails)
    (p1 p2 : SymbolDisplayPart)
    (h : detail.parameterListParts = { parts := [p1, p2], hasOptionalParameters := true }) :
    createSnippetOfFunctionCall item detail =
      { item with insertText := some (SnippetString.value
          { toks := [SnippetTok.text ((item.insertText.getD item.label) ++ "("),
                     SnippetTok.placeholder 1 p1.text, SnippetTok.text ", ",
                     SnippetTok.placeholder 2 p2.text, SnippetTok.tabstop 3,
                     SnippetTok.text ")", SnippetTok.tabstop 0],
            tabstopNum := 4 }) } := by
  simp [createSnippetOfFunctionCall, h, appendJoinedPlaceholders, SnippetString.start,
    SnippetString.appendText, SnippetString.appendPlaceholder, SnippetString.appendTabstopAuto,
    SnippetString.appendTabstopZero]

theorem c5_snippet_synthesis_witness :
    createSnippetOfFunctionCall c5Item c5Detail =
      { c5Item with insertText := some (SnippetString.value
          { toks := [SnippetTok.text "foo(", SnippetTok.placeholder 1 "a: string",
                     SnippetTok.text ", ", SnippetTok.placeholder 2 "b: number",
                     SnippetTok.tabstop 3, SnippetTok.text ")", SnippetTok.tabstop 0],
            tabstopNum := 4 }) } :=
  c5_snippet_synthesis c5Item c5Detail { text := "a: string", kind := "parameterName" }
    { text := "b: number", kind := "parameterName" } rfl

/-- C1 counterexample: when the client cannot resolve the item's uri to a
path, the source returns `undefined` (modelled `ret none`), not the item
unchanged, refuting the claim's file-identity clause at this concrete input. -/
theorem c1_resolve_counterexample :
    resolveCompletionItem c1EnvNoPath c1Item = ResolveOutcome.ret none ∧
    ResolveOutcome.ret none ≠ ResolveOutcome.ret (some c1Item) := by
  exact ⟨rfl, by decide⟩

/-- C1 as amended: a details-request failure or an empty or malformed response
returns the item unchanged and surfaces no error, while an unresolvable file
identity returns no item at all (`undefined`) rather than the item. -/
theorem c1_resolve_amended (env : ResolveEnv) (item : CompletionItemT) :
    (env.toPath item.data.uri = none →
      resolveCompletionItem env item = ResolveOutcome.ret none) ∧
    ∀ fp, env.toPath item.data.uri = some fp →
      (env.completionEntryDetails (completionDetailsArgs fp item.data) = DetailsOutcome.failure →
        resolveCompletionItem env item = ResolveOutcome.ret (some item)) ∧
      (env.completionEntryDetails (completionDetailsArgs fp item.data)
          = DetailsOutcome.notResponse →
        resolveCompletionItem env item = ResolveOutcome.ret (some item)) ∧
      (env.completionEntryDetails (completionDetailsArgs fp item.data) = DetailsOutcome.body [] →
        resolveCompletionItem env item = ResolveOutcome.ret (some item)) := by
  refine ⟨fun h => by simp [resolveCompletionItem, h],
    fun fp hfp => ⟨fun h => ?_, fun h => ?_, fun h => ?_⟩⟩ <;>
    simp [resolveCompletionItem, h, hfp]

theorem c1_resolve_amended_witness :
    resolveCompletionItem c1EnvNoPath c1Item = ResolveOutcome.ret none ∧
    resolveCompletionItem c1EnvFail c1Item = ResolveOutcome.ret (some c1Item) :=
  ⟨(c1_resolve_amended c1EnvNoPath c1Item).1 rfl,
   ((c1_resolve_amended c1EnvFail c1Item).2 "/a.ts" rfl).1 rfl⟩

theorem applyDetailText_insertText (item : CompletionItemT) (detail : CompletionEntryDetails) :
    (applyDetailText item detail).insertText = item.insertText := by
  unfold applyDetailText
  split <;> rfl

theorem applyDetailText_data (item : CompletionItemT) (detail : CompletionEntryDetails) :
    (applyDetailText item detail).data = item.data := by
  unfold applyDetailText
  split <;> rfl

theorem applyCodeActionsResult_insertText (item : CompletionItemT) (res : CodeActionsResult) :
    (applyCodeActionsResult item res).insertText = item.insertText := by
  unfold applyCodeActionsResult
  cases res with
  | mk command edits => cases command <;> rfl

theorem applyCodeActionsResult_data (item : CompletionItemT) (res : CodeActionsResult) :
    (applyCodeActionsResult item res).data = item.data := by
  unfold applyCodeActionsResult
  cases res with
  | mk command edits => cases command <;> rfl

theorem applySnippetPhase_of_isSnippet (env : ResolveEnv) (position : Position)
    (previousInsert : Option String) (item : CompletionItemT)
    (detail : CompletionEntryDetails) (h : item.data.isSnippet = true) :
    applySnippetPhase env position previousInsert item detail = item := by
  unfold applySnippetPhase
  rw [h]
  simp

/-- C3: resolution is idempotent with respect to snippet synthesis: when the
item's correlation data already carries `isSnippet = true`, any item returned
by a further resolution call has the same insertion text. -/
theorem c3_resolve_idempotent (env : ResolveEnv) (item resolved : CompletionItemT)
    (hsnip : item.data.isSnippet = true)
    (hres : resolveCompletionItem env item = ResolveOutcome.ret (some resolved)) :
    resolved.insertText = item.insertText := by
  unfold resolveCompletionItem at hres
  cases htp : env.toPath item.data.uri with
  | none =>
    rw [htp] at hres
    simp at hres
  | some fp =>
    rw [htp] at hres
    dsimp only at hres
    cases hdo : env.completionEntryDetails (completionDetailsArgs fp item.data) with
    | failure =>
      rw [hdo] at hres
      simp only [ResolveOutcome.ret.injEq, Option.some.injEq] at hres
      rw [← hres]
    | notResponse =>
      rw [hdo] at hres
      simp only [ResolveOutcome.ret.injEq, Option.some.injEq] at hres
      rw [← hres]
    | body details =>
      rw [hdo] at hres
      cases details with
      | nil =>
        simp only [ResolveOutcome.ret.injEq, Option.some.injEq] at hres
        rw [← hres]
      | cons detail rest =>
        dsimp only at hres
        cases hca : getCodeActions detail.codeActions fp with
        | none =>
          rw [hca] at hres
          simp at hres
        | some res =>
          rw [hca] at hres
          simp only [ResolveOutcome.ret.injEq, Option.some.injEq] at hres
          have hdata : (applyCodeActionsResult
              { applyDetailText item detail with documentation := getDocumentation detail }
              res).data = item.data := by
            rw [applyCodeActionsResult_data]
            exact applyDetailText_data item detail
          rw [← hres, applySnippetPhase_of_isSnippet _ _ _ _ _ (by rw [hdata]; exact hsnip),
            applyCodeActionsResult_insertText]
          exact applyDetailText_insertText item detail

theorem c3_resolve_idempotent_witness :
    c3Item.data.isSnippet = true ∧ c3Resolved.insertText = c3Item.insertText :=
  ⟨rfl, c3_resolve_idempotent c3Env c3Item c3Resolved rfl rfl⟩

theorem trimNeImpNe (s : String) (h : jsTrim s ≠ "") : s ≠ "" :=
  fun hs => h (by rw [hs]; rfl)

theorem strNilAppend (s : String) : "" ++ s = s := rfl

/-- C9: the documentation is unset exactly when the detail has no source
module and both rendered segments are blank, and otherwise its value is the
auto-import line (when a source module is present) followed by the non-blank
rendered segments joined as blocks. -/
theorem c9_documentation (detail : CompletionEntryDetails) :
    (getDocumentation detail = none ↔
      (detail.source = none ∧ jsTrim (plainWithLinks detail.documentation) = ""
        ∧ jsTrim (tagsMarkdownPreview detail.tags) = "")) ∧
    (getDocumentation detail).map MarkupContent.value =
      (let srcBlock :=
         match detail.source with
         | some src => "Auto import from " ++ ("'" ++ plainWithLinks src ++ "'") ++ "\n"
         | none => ""
       let body := joinSep "\n\n"
         ([plainWithLinks detail.documentation, tagsMarkdownPreview detail.tags].filter
           (fun s => decide (s ≠ "") && decide (jsTrim s ≠ "")))
       if srcBlock ++ body = "" then none else some (srcBlock ++ body)) := by
  have hNl : ¬(("\n" : String) = "") := by decide
  have hNN : ¬(("\n\n" : String) = "") := by decide
  unfold getDocumentation
  cases hsrc : detail.source with
  | none =>
    by_cases ta : jsTrim (plainWithLinks detail.documentation) = ""
    · by_cases tb : jsTrim (tagsMarkdownPreview detail.tags) = ""
      · simp [List.filter_cons, ta, tb, joinSep, strNilAppend, gt_iff_lt, strLengthPosIff]
      · have hB := trimNeImpNe _ tb
        simp [List.filter_cons, ta, tb, hB, joinSep, strNilAppend, gt_iff_lt, strLengthPosIff]
    · have hA := trimNeImpNe _ ta
      by_cases tb : jsTrim (tagsMarkdownPreview detail.tags) = ""
      · simp [List.filter_cons, ta, tb, hA, joinSep, strNilAppend, gt_iff_lt, strLengthPosIff]
      · have hB := trimNeImpNe _ tb
        simp [List.filter_cons, ta, tb, hA, hB, joinSep, strNilAppend, gt_iff_lt,
          strLengthPosIff, strAppendEqEmptyIff, hNN]
  | some src =>
    simp [gt_iff_lt, strLengthPosIff, strAppendEqEmptyIff, hNl]

end TsCompletion
